import Mathlib

/-!
# Verification of the travel-listing marketplace core

Shallow embedding of the booking/review validation logic of the
`alx_travel_app` repository (`listings/models.py`, `listings/views.py`,
`listings/serializers.py`) together with proofs of the spec's claims.

Modelling conventions:
* Django `DateField` values are integers (days since an arbitrary epoch);
  subtracting two dates (`(check_out - check_in).days`) is integer subtraction.
* `DecimalField` money values are rationals (`Rat`).
* Primary keys (`UUIDField` / user ids) are natural numbers.
* A serializer payload is a record of `Option` fields: `none` means the field
  is absent from the request data (`data.get(...)` returns `None`), which is
  what happens on a PATCH that omits the field.  On create and on PUT the
  framework requires `listing_id`, `check_in_date` and `check_out_date` to be
  present; `number_of_guests` and `status` have model defaults and may be
  absent even on create.
* Raising `serializers.ValidationError` is returning `Except.error msg`.
-/

/-- Booking status, from `Booking.BOOKING_STATUS` in `listings/models.py`. -/
inductive BStatus where
  | pending
  | confirmed
  | cancelled
  | completed
deriving DecidableEq, Repr

/-- The fields of the `Listing` model that the validation logic reads
(`listings/models.py`).  `listing_id` is the primary key. -/
structure Listing where
  listing_id : Nat
  host : Nat
  price_per_night : Rat
  max_guests : Nat
  available : Bool
deriving DecidableEq, Repr

/-- The fields of the `Booking` model that the validation logic reads
(`listings/models.py`).  `listing_id` is the id of the listing the Django
foreign key points at. -/
structure Booking where
  booking_id : Nat
  listing_id : Nat
  user : Nat
  check_in_date : Int
  check_out_date : Int
  number_of_guests : Nat
  total_price : Rat
  status : BStatus
deriving DecidableEq, Repr

/-- The fields of the `Review` model that the validation logic reads
(`listings/models.py`).  `booking` holds the optional one-to-one related
`Booking` object (`self.booking` in `Review.clean`). -/
structure Review where
  review_id : Nat
  listing_id : Nat
  user : Nat
  booking : Option Booking
  rating : Int
  comment : String
deriving DecidableEq, Repr

/-- `Listing.objects.get(listing_id=...)` over a database represented as a
list: `some` when the listing exists, `none` when `Listing.DoesNotExist`
would be raised. -/
def findListing (ls : List Listing) (lid : Nat) : Option Listing :=
  ls.find? (fun l => l.listing_id == lid)

/-- Membership in `status__in=['confirmed', 'pending']` from the conflicting
bookings query in `BookingSerializer.validate`. -/
def isActive (s : BStatus) : Bool :=
  s == BStatus.confirmed || s == BStatus.pending

/-- `Booking.duration_nights` (`listings/models.py`):
`(self.check_out_date - self.check_in_date).days`. -/
def Booking.duration_nights (b : Booking) : Int :=
  b.check_out_date - b.check_in_date

/-- `Booking.calculate_total_price` (`listings/models.py`):
`self.listing.price_per_night * self.duration_nights`, given the related
listing. -/
def Booking.calculate_total_price (b : Booking) (l : Listing) : Rat :=
  l.price_per_night * (b.duration_nights : Rat)

/-- The writable payload of `BookingSerializer` as seen by `validate`:
each field is `none` when absent from the request data. -/
structure BookingData where
  listing_id : Option Nat
  check_in_date : Option Int
  check_out_date : Option Int
  number_of_guests : Option Nat
  status : Option BStatus
deriving DecidableEq, Repr

/-- The queryset built in `BookingSerializer.validate`:
`Booking.objects.filter(listing=listing, status__in=['confirmed','pending'],
check_in_date__lt=check_out, check_out_date__gt=check_in)`, then
`.exclude(booking_id=self.instance.booking_id)` when updating.
`inst` is `self.instance`'s primary key (`none` on create). -/
def conflictingBookings (bs : List Booking) (l : Listing) (check_in check_out : Int)
    (inst : Option Nat) : List Booking :=
  let base := bs.filter (fun b =>
    b.listing_id == l.listing_id
      && isActive b.status
      && decide (b.check_in_date < check_out)
      && decide (b.check_out_date > check_in))
  match inst with
  | some iid => base.filter (fun b => b.booking_id != iid)
  | none => base

/-- `BookingSerializer.validate` (`listings/serializers.py`, lines 115-157).
The checks run in source order; every listing-dependent check is inside
`if listing_id:`, and the conflict check additionally requires both dates
to be present (`if check_in and check_out:`). -/
def BookingSerializer.validate (ls : List Listing) (bs : List Booking)
    (data : BookingData) (inst : Option Nat) : Except String Unit :=
  let number_of_guests := data.number_of_guests.getD 1
  -- if check_out and check_in and check_out <= check_in
  if (match data.check_in_date, data.check_out_date with
      | some ci, some co => decide (co ≤ ci)
      | _, _ => false) then
    Except.error "Check-out date must be after check-in date"
  else
    match data.listing_id with
    | none => Except.ok ()
    | some lid =>
      match findListing ls lid with
      | none => Except.error "Invalid listing ID"
      | some listing =>
        if listing.available = false then
          Except.error "This listing is not available for booking"
        else if number_of_guests > listing.max_guests then
          Except.error "Number of guests exceeds maximum allowed"
        else
          match data.check_in_date, data.check_out_date with
          | some ci, some co =>
            if (conflictingBookings bs listing ci co inst).isEmpty = false then
              Except.error "These dates are not available"
            else
              Except.ok ()
          | _, _ => Except.ok ()

/-- `BookingSerializer.create` (`listings/serializers.py`, lines 159-180):
pops `listing_id`, resolves the listing, computes
`nights = (check_out - check_in).days` and
`total_price = listing.price_per_night * nights`, and builds the model
instance (absent `number_of_guests` / `status` fall back to the model
defaults `1` / `'pending'`).  `none` when `Listing.objects.get` raises. -/
def BookingSerializer.createBooking (ls : List Listing) (data : BookingData)
    (user bid : Nat) : Option Booking :=
  match data.listing_id with
  | none => none
  | some lid =>
    match findListing ls lid with
    | none => none
    | some listing =>
      match data.check_in_date, data.check_out_date with
      | some ci, some co =>
        some {
          booking_id := bid
          listing_id := listing.listing_id
          user := user
          check_in_date := ci
          check_out_date := co
          number_of_guests := data.number_of_guests.getD 1
          total_price := listing.price_per_night * ((co - ci : Int) : Rat)
          status := data.status.getD BStatus.pending }
      | _, _ => none

/-- `ModelSerializer.update` on a `Booking` instance: each field present in
the validated data is set on the instance, absent fields keep their stored
value (`BookingSerializer` defines no custom `update`). -/
def mergeData (b : Booking) (data : BookingData) : Booking :=
  { b with
    listing_id := data.listing_id.getD b.listing_id
    check_in_date := data.check_in_date.getD b.check_in_date
    check_out_date := data.check_out_date.getD b.check_out_date
    number_of_guests := data.number_of_guests.getD b.number_of_guests
    status := data.status.getD b.status }

/-- `BookingViewSet.cancel` (`listings/views.py`, lines 228-251) acting on
the fetched booking: 400 errors for completed/cancelled bookings, otherwise
set `status = 'cancelled'` and save. -/
def BookingViewSet.cancel (b : Booking) : Except String Booking :=
  if b.status == BStatus.completed then
    Except.error "Cannot cancel a completed booking"
  else if b.status == BStatus.cancelled then
    Except.error "Booking is already cancelled"
  else
    Except.ok { b with status := BStatus.cancelled }

/-- `BookingViewSet.update_status` (`listings/views.py`, lines 194-212)
acting on the fetched booking.  The view only checks that the requested
status is one of the four `BOOKING_STATUS` values (which `BStatus` makes
unrepresentable otherwise) and then sets it with no further validation. -/
def BookingViewSet.updateStatus (b : Booking) (s : BStatus) : Booking :=
  { b with status := s }

/-- The booking write operations the REST layer exposes
(`BookingViewSet`: create, update/PATCH, `update_status`, `cancel`). -/
inductive BookingOp where
  | create (data : BookingData) (user bid : Nat)
  | update (bid : Nat) (data : BookingData)
  | updateStatus (bid : Nat) (s : BStatus)
  | cancel (bid : Nat)
deriving DecidableEq, Repr

/-- `data` contains every field the framework requires on create
(`listing_id`, `check_in_date`, `check_out_date` are required serializer
fields; `number_of_guests` and `status` have defaults). -/
def requiredForCreate (data : BookingData) : Bool :=
  data.listing_id.isSome && data.check_in_date.isSome && data.check_out_date.isSome

/-- One write operation against the booking table, with the listing table
`ls` fixed.  A failed operation (validation error, 404, or the database
`check_out_after_check_in` check constraint) leaves the table unchanged.
Saving a fetched instance overwrites the row with its primary key. -/
def applyOp (ls : List Listing) (db : List Booking) : BookingOp → List Booking
  | BookingOp.create data user bid =>
    if requiredForCreate data = false then db
    else
      match BookingSerializer.validate ls db data none with
      | Except.error _ => db
      | Except.ok _ =>
        match BookingSerializer.createBooking ls data user bid with
        | none => db
        | some b =>
          -- database check constraint `check_out_date > check_in_date`
          if b.check_out_date ≤ b.check_in_date then db else b :: db
  | BookingOp.update bid data =>
    match db.find? (fun b => b.booking_id == bid) with
    | none => db
    | some inst =>
      match BookingSerializer.validate ls db data (some bid) with
      | Except.error _ => db
      | Except.ok _ =>
        -- database check constraint `check_out_date > check_in_date`
        if (mergeData inst data).check_out_date ≤ (mergeData inst data).check_in_date then db
        else db.map (fun b => if b.booking_id == bid then mergeData inst data else b)
  | BookingOp.updateStatus bid s =>
    match db.find? (fun b => b.booking_id == bid) with
    | none => db
    | some inst =>
      db.map (fun b => if b.booking_id == bid then BookingViewSet.updateStatus inst s else b)
  | BookingOp.cancel bid =>
    match db.find? (fun b => b.booking_id == bid) with
    | none => db
    | some inst =>
      match BookingViewSet.cancel inst with
      | Except.error _ => db
      | Except.ok b' => db.map (fun b => if b.booking_id == bid then b' else b)

/-- Run a sequence of booking operations starting from the empty table. -/
def runOps (ls : List Listing) (ops : List BookingOp) : List Booking :=
  ops.foldl (applyOp ls) []

/-- Two bookings are a conflicting active pair: distinct rows on the same
listing, both with status in {pending, confirmed}, with overlapping
half-open date ranges. -/
def activeConflict (b1 b2 : Booking) : Bool :=
  b1.booking_id != b2.booking_id
    && b1.listing_id == b2.listing_id
    && isActive b1.status
    && isActive b2.status
    && decide (b1.check_in_date < b2.check_out_date)
    && decide (b1.check_out_date > b2.check_in_date)

/-- The spec's no-double-booking invariant: no two distinct active bookings
on the same listing overlap. -/
def noOverlapInv (db : List Booking) : Bool :=
  db.all (fun b1 => db.all (fun b2 => !activeConflict b1 b2))

/-- Every stored booking has `check_in_date < check_out_date`. -/
def datesInv (db : List Booking) : Bool :=
  db.all (fun b => decide (b.check_in_date < b.check_out_date))

/-- Every stored booking points at an existing listing and respects its
`max_guests` limit. -/
def guestsInv (ls : List Listing) (db : List Booking) : Bool :=
  db.all (fun b =>
    match findListing ls b.listing_id with
    | some l => b.number_of_guests ≤ l.max_guests
    | none => false)

/-- `ListingSerializer.validate_price_per_night`
(`listings/serializers.py`, lines 70-74). -/
def ListingSerializer.validate_price_per_night (value : Rat) : Except String Rat :=
  if value ≤ 0 then Except.error "Price per night must be positive"
  else Except.ok value

/-- `ListingSerializer.validate_max_guests`
(`listings/serializers.py`, lines 76-82).  The raw payload value is an
integer (possibly negative before validation). -/
def ListingSerializer.validate_max_guests (value : Int) : Except String Int :=
  if value ≤ 0 then Except.error "Max guests must be at least 1"
  else if value > 20 then Except.error "Max guests cannot exceed 20"
  else Except.ok value

/-- `ReviewSerializer.validate_rating`
(`listings/serializers.py`, lines 207-211). -/
def ReviewSerializer.validate_rating (value : Int) : Except String Int :=
  if ¬(1 ≤ value ∧ value ≤ 5) then
    Except.error "Rating must be between 1 and 5"
  else Except.ok value

/-- `Review.clean` (`listings/models.py`, lines 308-317): reject when the
linked booking is not completed, or is for a different listing. -/
def Review.clean (r : Review) : Except String Unit :=
  match r.booking with
  | some b =>
    if b.status != BStatus.completed then
      Except.error "Can only review completed bookings"
    else if b.listing_id != r.listing_id then
      Except.error "Booking must be for the same listing being reviewed"
    else Except.ok ()
  | none => Except.ok ()

/-- How a failed REST write surfaces to the client: a serializer
`ValidationError` (HTTP 400 with a message), an uncaught
`Model.DoesNotExist` (HTTP 500), or an uncaught database `IntegrityError`
(HTTP 500). -/
inductive ApiError where
  | validation (msg : String)
  | doesNotExist (msg : String)
  | integrity (msg : String)
deriving DecidableEq, Repr

/-- Is the error a serializer validation error (the only kind the spec maps
to a 400/409-style response)? -/
def isValidationError {α : Type} : Except ApiError α → Bool
  | Except.error (ApiError.validation _) => true
  | _ => false

/-- Is the error an uncaught database integrity error? -/
def isIntegrityError {α : Type} : Except ApiError α → Bool
  | Except.error (ApiError.integrity _) => true
  | _ => false

/-- The writable payload of `ReviewSerializer` (`review_id`, `created_at`,
`updated_at` are read-only; there is no `booking` field). -/
structure ReviewInput where
  listing_id : Nat
  user_id : Nat
  rating : Int
  comment : String
deriving DecidableEq, Repr

/-- Inserting a review row: the database enforces the
`unique_user_listing_review` constraint on `(listing, user)`
(`Review.Meta.constraints`) and rejects a duplicate pair with an
`IntegrityError`, leaving the table unchanged. -/
def dbInsertReview (rs : List Review) (r : Review) : Except ApiError (List Review) :=
  if rs.any (fun r0 => r0.listing_id == r.listing_id && r0.user == r.user) then
    Except.error (ApiError.integrity "UNIQUE constraint failed: listing, user")
  else
    Except.ok (r :: rs)

/-- The full review-create pipeline (`ReviewViewSet` POST): serializer field
validation (`validate_rating`), then `ReviewSerializer.create` (resolve the
listing, build the instance with no linked booking), then the database
insert.  On any error the review table is unchanged. -/
def reviewCreate (ls : List Listing) (rs : List Review) (inp : ReviewInput)
    (rid : Nat) : Except ApiError (List Review) :=
  match ReviewSerializer.validate_rating inp.rating with
  | Except.error m => Except.error (ApiError.validation m)
  | Except.ok _ =>
    match findListing ls inp.listing_id with
    | none => Except.error (ApiError.doesNotExist "Listing matching query does not exist")
    | some listing =>
      dbInsertReview rs {
        review_id := rid
        listing_id := listing.listing_id
        user := inp.user_id
        booking := none
        rating := inp.rating
        comment := inp.comment }

/-- At most one review per `(listing, user)` pair. -/
def reviewPairUnique (rs : List Review) : Bool :=
  rs.all (fun r1 => rs.all (fun r2 =>
    r1.review_id == r2.review_id
      || !(r1.listing_id == r2.listing_id && r1.user == r2.user)))

/-- The operation's payload cannot have its guest-count check skipped by the
`if listing_id:` guard in `BookingSerializer.validate`: an update must carry
both `listing_id` and `number_of_guests` (create always carries
`listing_id`; `update_status` and `cancel` do not touch the guest count). -/
def opGuestChecked : BookingOp → Bool
  | BookingOp.update _ data => data.listing_id.isSome && data.number_of_guests.isSome
  | _ => true

/-- A sample listing: id 0, host 9, 100 per night, at most 2 guests,
available. -/
def demoListing : Listing := ⟨0, 9, 100, 2, true⟩

/-- A create payload for `demoListing`: days 0 to 5, one guest. -/
def demoCreate : BookingData := ⟨some 0, some 0, some 5, some 1, none⟩

/-- A create payload for `demoListing`: days 0 to 5, two guests. -/
def demoCreateTwoGuests : BookingData := ⟨some 0, some 0, some 5, some 2, none⟩

/-- A PATCH payload that only changes `number_of_guests`, to 50. -/
def demoGuestPatch : BookingData := ⟨none, none, none, some 50, none⟩

/-- A create payload for `demoListing` from 2024-01-01 (day 19723 since
1970-01-01) to 2024-01-03 (day 19725), two guests. -/
def demoJanCreate : BookingData := ⟨some 0, some 19723, some 19725, some 2, none⟩

/-- Book days 0-5, cancel, book the same days again, then flip the first
booking back to `confirmed` through `update_status`. -/
def overlapTrace : List BookingOp :=
  [BookingOp.create demoCreate 1 1,
   BookingOp.cancel 1,
   BookingOp.create demoCreate 2 2,
   BookingOp.updateStatus 1 BStatus.confirmed]

/-- Book days 0-5 with two guests (the listing's maximum), then PATCH the
booking's `number_of_guests` to 50 without resending `listing_id`. -/
def guestPatchTrace : List BookingOp :=
  [BookingOp.create demoCreateTwoGuests 1 1,
   BookingOp.update 1 demoGuestPatch]

/-- A single well-formed create. -/
def singleCreateTrace : List BookingOp :=
  [BookingOp.create demoCreate 1 1]

/-- An existing review by user 1 on listing 0. -/
def demoReview : Review := ⟨0, 0, 1, none, 5, "Great place"⟩

/-- A second review request by user 1 on listing 0 (a duplicate pair). -/
def demoDupReviewInput : ReviewInput := ⟨0, 1, 4, "Another review"⟩

/-- A completed booking on `demoListing`. -/
def demoBookingCompleted : Booking := ⟨1, 0, 1, 0, 5, 1, 500, BStatus.completed⟩

/-- A pending booking on `demoListing`. -/
def demoBookingPending : Booking := ⟨2, 0, 1, 10, 15, 1, 500, BStatus.pending⟩

/-- The booking `demoJanCreate` produces: two nights at 100 per night. -/
def demoJanBooking : Booking := ⟨1, 0, 1, 19723, 19725, 2, 200, BStatus.pending⟩

/-- A listing with `available = False`. -/
def demoUnavailableListing : Listing := ⟨3, 9, 100, 2, false⟩

/-- A create payload pointing at listing id 7, which does not exist. -/
def demoMissingListingCreate : BookingData := ⟨some 7, some 0, some 5, some 1, none⟩

/-- A create payload pointing at `demoUnavailableListing`. -/
def demoUnavailCreate : BookingData := ⟨some 3, some 0, some 5, some 1, none⟩

/-- A create payload whose check-out (day 2) is before its check-in (day 5). -/
def demoBadDatesCreate : BookingData := ⟨some 0, some 5, some 2, some 1, none⟩

/-- A create payload asking for 50 guests on `demoListing` (max 2). -/
def demoOverGuestsCreate : BookingData := ⟨some 0, some 0, some 5, some 50, none⟩

/-- The review row `demoDupReviewInput` would insert into an empty table. -/
def demoCreatedReview : Review := ⟨1, 0, 1, none, 4, "Another review"⟩

theorem findListing_id {ls : List Listing} {lid : Nat} {l : Listing}
    (h : findListing ls lid = some l) : l.listing_id = lid := by
  have hp := List.find?_some h
  simpa using hp

theorem findListing_mem {ls : List Listing} {lid : Nat} {l : Listing}
    (h : findListing ls lid = some l) : l ∈ ls :=
  List.mem_of_find?_eq_some h

theorem findListing_self {ls : List Listing} {lid : Nat} {l : Listing}
    (h : findListing ls lid = some l) : findListing ls l.listing_id = some l := by
  rw [findListing_id h]; exact h

theorem mem_conflictingBookings {bs : List Booking} {l : Listing} {ci co : Int}
    {inst : Option Nat} {b : Booking} :
    b ∈ conflictingBookings bs l ci co inst ↔
      b ∈ bs ∧ b.listing_id = l.listing_id ∧ isActive b.status = true ∧
        b.check_in_date < co ∧ b.check_out_date > ci ∧
        (∀ iid, inst = some iid → b.booking_id ≠ iid) := by
  unfold conflictingBookings
  cases inst with
  | none =>
    simp [List.mem_filter, and_assoc]
  | some iid =>
    simp [List.mem_filter, and_assoc]
    tauto

/-- C5: `Review.clean` accepts a review exactly when its linked booking (if
any) is completed and is for the listing being reviewed, so every review
that passes creation-time model validation with a linked booking satisfies
`booking.status = completed` and `booking.listing = review.listing`. -/
theorem review_clean_completed_same_listing (r : Review) :
    Review.clean r = Except.ok () ↔
      ∀ b, r.booking = some b →
        b.status = BStatus.completed ∧ b.listing_id = r.listing_id := by
  cases hb : r.booking with
  | none => simp [Review.clean, hb]
  | some b =>
    simp only [Review.clean, hb]
    by_cases h1 : b.status = BStatus.completed
    · by_cases h2 : b.listing_id = r.listing_id
      · simp [h1, h2]
      · simp [h1, h2, bne_iff_ne]
    · simp [h1, bne_iff_ne]

/-- C9: `BookingViewSet.cancel` returns a 400 error and leaves the booking
unchanged when its status is completed or cancelled, and otherwise succeeds
changing exactly the status field to cancelled. -/
theorem booking_cancel_spec (b : Booking) :
    (b.status = BStatus.completed →
       BookingViewSet.cancel b = Except.error "Cannot cancel a completed booking") ∧
    (b.status = BStatus.cancelled →
       BookingViewSet.cancel b = Except.error "Booking is already cancelled") ∧
    (b.status = BStatus.pending ∨ b.status = BStatus.confirmed →
       BookingViewSet.cancel b = Except.ok { b with status := BStatus.cancelled }) ∧
    (∀ ls db bid, db.find? (fun x => x.booking_id == bid) = some b →
       b.status = BStatus.completed ∨ b.status = BStatus.cancelled →
       applyOp ls db (BookingOp.cancel bid) = db) := by
  refine ⟨?_, ?_, ?_, ?_⟩
  · intro h; simp [BookingViewSet.cancel, h, beq_iff_eq]
  · intro h; simp [BookingViewSet.cancel, h, beq_iff_eq]
  · rintro (h | h) <;> simp [BookingViewSet.cancel, h, beq_iff_eq]
  · intro ls db bid hfind h
    simp only [applyOp, hfind]
    rcases h with h | h <;> simp [BookingViewSet.cancel, h, beq_iff_eq]

/-- C9 witness: cancelling a completed booking fails with the 400 message
and the table is unchanged; cancelling a pending booking succeeds and only
flips the status. -/
theorem booking_cancel_spec_witness :
    BookingViewSet.cancel demoBookingCompleted =
      Except.error "Cannot cancel a completed booking" ∧
    BookingViewSet.cancel demoBookingPending =
      Except.ok { demoBookingPending with status := BStatus.cancelled } ∧
    applyOp [demoListing] [demoBookingCompleted] (BookingOp.cancel 1) =
      [demoBookingCompleted] :=
  ⟨(booking_cancel_spec demoBookingCompleted).1 rfl,
   (booking_cancel_spec demoBookingPending).2.2.1 (Or.inl rfl),
   (booking_cancel_spec demoBookingCompleted).2.2.2 [demoListing]
     [demoBookingCompleted] 1 (by decide) (Or.inl rfl)⟩

/-- C10: `ListingSerializer.validate_max_guests` accepts a value exactly
when it lies between 1 and 20, so listings written through the API satisfy
`1 ≤ max_guests ≤ 20`. -/
theorem listing_max_guests_bounds (v : Int) :
    ListingSerializer.validate_max_guests v = Except.ok v ↔ 1 ≤ v ∧ v ≤ 20 := by
  constructor
  · intro h
    unfold ListingSerializer.validate_max_guests at h
    split_ifs at h with h1 h2
    omega
  · rintro ⟨h1, h2⟩
    unfold ListingSerializer.validate_max_guests
    rw [if_neg (by omega), if_neg (by omega)]

/-- C1: given present, well-ordered dates, an existing available listing and
an admissible guest count, `BookingSerializer.validate` accepts exactly when
no existing pending/confirmed booking of that listing (other than the one
being updated) overlaps the half-open interval: it rejects exactly when some
existing booking has `check_in < new.check_out` and
`check_out > new.check_in`. -/
theorem booking_validate_accepts_iff_no_conflict
    (ls : List Listing) (bs : List Booking) (data : BookingData) (inst : Option Nat)
    (lid : Nat) (l : Listing) (ci co : Int)
    (hlid : data.listing_id = some lid)
    (hci : data.check_in_date = some ci)
    (hco : data.check_out_date = some co)
    (hfind : findListing ls lid = some l)
    (hdates : ci < co)
    (havail : l.available = true)
    (hguests : data.number_of_guests.getD 1 ≤ l.max_guests) :
    BookingSerializer.validate ls bs data inst = Except.ok () ↔
      ¬ ∃ b ∈ bs, b.listing_id = l.listing_id ∧ isActive b.status = true ∧
          b.check_in_date < co ∧ b.check_out_date > ci ∧
          (∀ iid, inst = some iid → b.booking_id ≠ iid) := by
  have hno : ¬ co ≤ ci := not_le.mpr hdates
  unfold BookingSerializer.validate
  simp only [hci, hco, hlid, hfind, decide_eq_true_eq]
  rw [if_neg hno, if_neg (by simp [havail]), if_neg (not_lt.mpr hguests)]
  have hconn : conflictingBookings bs l ci co inst = [] ↔
      ¬ ∃ b ∈ bs, b.listing_id = l.listing_id ∧ isActive b.status = true ∧
          b.check_in_date < co ∧ b.check_out_date > ci ∧
          (∀ iid, inst = some iid → b.booking_id ≠ iid) := by
    rw [List.eq_nil_iff_forall_not_mem]
    constructor
    · rintro h ⟨b, hb, hrest⟩
      exact h b (mem_conflictingBookings.mpr ⟨hb, hrest⟩)
    · intro h b hb
      rcases mem_conflictingBookings.mp hb with ⟨h1, hrest⟩
      exact h ⟨b, h1, hrest⟩
  rw [← hconn]
  cases hE : (conflictingBookings bs l ci co inst).isEmpty with
  | false =>
    simp only [hE, if_pos rfl]
    have hne : conflictingBookings bs l ci co inst ≠ [] := by
      intro hnil; rw [hnil] at hE; simp at hE
    simp [hne]
  | true =>
    have hnil : conflictingBookings bs l ci co inst = [] := by
      simpa using hE
    simp [hE, hnil]

/-- C1 witness: for the listing and dates of `demoCreate` against a single
non-overlapping pending booking, the hypotheses hold and acceptance is
equivalent to the absence of an overlapping active booking. -/
theorem booking_validate_accepts_iff_no_conflict_witness :
    (0 : Int) < 5 ∧ demoListing.available = true ∧
    (BookingSerializer.validate [demoListing] [demoBookingPending] demoCreate none =
        Except.ok () ↔
      ¬ ∃ b ∈ [demoBookingPending], b.listing_id = demoListing.listing_id ∧
          isActive b.status = true ∧ b.check_in_date < 5 ∧ b.check_out_date > 0 ∧
          (∀ iid, (none : Option Nat) = some iid → b.booking_id ≠ iid)) :=
  ⟨by decide, rfl,
   booking_validate_accepts_iff_no_conflict [demoListing] [demoBookingPending]
     demoCreate none 0 demoListing 0 5 rfl rfl rfl rfl (by decide) rfl (by decide)⟩

theorem validate_ok_listing {ls : List Listing} {bs : List Booking}
    {data : BookingData} {inst : Option Nat} {lid : Nat}
    (hlid : data.listing_id = some lid)
    (hok : BookingSerializer.validate ls bs data inst = Except.ok ()) :
    ∃ l, findListing ls lid = some l ∧ l.available = true ∧
      data.number_of_guests.getD 1 ≤ l.max_guests := by
  unfold BookingSerializer.validate at hok
  simp only [hlid] at hok
  split at hok
  · exact absurd hok (by simp)
  · cases hfind : findListing ls lid with
    | none =>
      simp only [hfind] at hok
      exact absurd hok (by simp)
    | some l =>
      simp only [hfind] at hok
      split at hok
      · exact absurd hok (by simp)
      · rename_i havail
        split at hok
        · exact absurd hok (by simp)
        · rename_i hguests
          refine ⟨l, rfl, ?_, not_lt.mp hguests⟩
          rcases Bool.eq_false_or_eq_true l.available with ht | hf
          · exact ht
          · exact absurd hf havail

theorem createBooking_some {ls : List Listing} {data : BookingData}
    {user bid : Nat} {b : Booking}
    (h : BookingSerializer.createBooking ls data user bid = some b) :
    ∃ lid l ci co, data.listing_id = some lid ∧ findListing ls lid = some l ∧
      data.check_in_date = some ci ∧ data.check_out_date = some co ∧
      b = { booking_id := bid, listing_id := l.listing_id, user := user,
            check_in_date := ci, check_out_date := co,
            number_of_guests := data.number_of_guests.getD 1,
            total_price := l.price_per_night * ((co - ci : Int) : Rat),
            status := data.status.getD BStatus.pending } := by
  unfold BookingSerializer.createBooking at h
  cases hlid : data.listing_id with
  | none =>
    simp only [hlid] at h
    exact Option.noConfusion h
  | some lid =>
    simp only [hlid] at h
    cases hfind : findListing ls lid with
    | none =>
      simp only [hfind] at h
      exact Option.noConfusion h
    | some l =>
      simp only [hfind] at h
      cases hci : data.check_in_date with
      | none =>
        simp only [hci] at h
        exact Option.noConfusion h
      | some ci =>
        cases hco : data.check_out_date with
        | none =>
          simp only [hci, hco] at h
          exact Option.noConfusion h
        | some co =>
          simp only [hci, hco] at h
          exact ⟨lid, l, ci, co, rfl, hfind, rfl, rfl, (Option.some.inj h).symm⟩

/-- C3: every booking built by `BookingSerializer.create` has
`total_price = listing.price_per_night * nights`, where the night count is
the date difference in days (`Booking.duration_nights`), and agrees with
`Booking.calculate_total_price`. -/
theorem booking_create_total_price (ls : List Listing) (data : BookingData)
    (user bid : Nat) (b : Booking) (lid : Nat) (l : Listing)
    (hlid : data.listing_id = some lid)
    (hfind : findListing ls lid = some l)
    (hb : BookingSerializer.createBooking ls data user bid = some b) :
    b.total_price = l.price_per_night * (b.duration_nights : Rat) ∧
    b.total_price = b.calculate_total_price l := by
  obtain ⟨lid', l', ci, co, hlid', hfind', _, _, hbeq⟩ := createBooking_some hb
  rw [hlid] at hlid'
  injection hlid' with h1
  subst h1
  rw [hfind] at hfind'
  injection hfind' with h2
  subst h2
  subst hbeq
  simp [Booking.duration_nights, Booking.calculate_total_price]

/-- C3 witness: for a listing at 100 per night and a booking from 2024-01-01
(day 19723) to 2024-01-03 (day 19725), the created booking has
`total_price = 200` and `duration_nights = 2`, and the general law holds at
that input. -/
theorem booking_create_total_price_witness :
    BookingSerializer.createBooking [demoListing] demoJanCreate 1 1 =
      some demoJanBooking ∧
    demoJanBooking.total_price = 200 ∧
    demoJanBooking.duration_nights = 2 ∧
    demoJanBooking.total_price =
      demoListing.price_per_night * (demoJanBooking.duration_nights : Rat) := by
  have hcreate : BookingSerializer.createBooking [demoListing] demoJanCreate 1 1 =
      some demoJanBooking := by
    unfold BookingSerializer.createBooking demoJanCreate findListing demoListing
      demoJanBooking
    norm_num
  exact ⟨hcreate, by decide, by decide,
    (booking_create_total_price [demoListing] demoJanCreate 1 1 demoJanBooking 0
      demoListing rfl rfl hcreate).1⟩

/-- C8: a booking validates only against a listing that exists and is
available: when the payload's `listing_id` matches no listing, or matches an
unavailable one, `BookingSerializer.validate` returns a validation error,
and acceptance implies the listing exists with `available = True`. -/
theorem booking_validate_requires_available_listing :
    (∀ ls bs data inst lid, data.listing_id = some lid →
       BookingSerializer.validate ls bs data inst = Except.ok () →
       ∃ l, findListing ls lid = some l ∧ l.available = true) ∧
    (∀ ls bs data inst lid, data.listing_id = some lid →
       findListing ls lid = none →
       ∃ m, BookingSerializer.validate ls bs data inst = Except.error m) ∧
    (∀ ls bs data inst lid l, data.listing_id = some lid →
       findListing ls lid = some l → l.available = false →
       ∃ m, BookingSerializer.validate ls bs data inst = Except.error m) := by
  refine ⟨?_, ?_, ?_⟩
  · intro ls bs data inst lid hlid hok
    obtain ⟨l, hfind, hav, _⟩ := validate_ok_listing hlid hok
    exact ⟨l, hfind, hav⟩
  · intro ls bs data inst lid hlid hfind
    unfold BookingSerializer.validate
    simp only [hlid, hfind]
    split
    · exact ⟨_, rfl⟩
    · exact ⟨_, rfl⟩
  · intro ls bs data inst lid l hlid hfind hav
    unfold BookingSerializer.validate
    simp only [hlid, hfind, hav]
    split
    · exact ⟨_, rfl⟩
    · exact ⟨_, rfl⟩

/-- C8 witness: a payload pointing at a missing listing id and one pointing
at an unavailable listing are both rejected, and an accepted payload's
listing exists and is available. -/
theorem booking_validate_requires_available_listing_witness :
    (∃ l, findListing [demoListing] 0 = some l ∧ l.available = true) ∧
    (∃ m, BookingSerializer.validate [demoListing] [] demoMissingListingCreate none =
       Except.error m) ∧
    (∃ m, BookingSerializer.validate [demoUnavailableListing] [] demoUnavailCreate none =
       Except.error m) :=
  ⟨booking_validate_requires_available_listing.1 [demoListing] [] demoCreate none 0
     rfl rfl,
   booking_validate_requires_available_listing.2.1 [demoListing] []
     demoMissingListingCreate none 7 rfl (by decide),
   booking_validate_requires_available_listing.2.2 [demoUnavailableListing] []
     demoUnavailCreate none 3 demoUnavailableListing rfl (by decide) rfl⟩

theorem all_map_replace {P : Booking → Bool} {db : List Booking} {bid : Nat}
    {b' : Booking} (hdb : db.all P = true) (hb' : P b' = true) :
    (db.map (fun b => if b.booking_id == bid then b' else b)).all P = true := by
  rw [List.all_eq_true] at hdb ⊢
  intro y hy
  obtain ⟨x, hx, hxy⟩ := List.mem_map.mp hy
  by_cases hc : (x.booking_id == bid) = true
  · rw [if_pos hc] at hxy; exact hxy ▸ hb'
  · rw [if_neg hc] at hxy; exact hxy ▸ hdb x hx

theorem cancel_ok {b b' : Booking} (h : BookingViewSet.cancel b = Except.ok b') :
    b' = { b with status := BStatus.cancelled } := by
  unfold BookingViewSet.cancel at h
  split at h
  · exact absurd h (by simp)
  · split at h
    · exact absurd h (by simp)
    · exact (Except.ok.inj h).symm

theorem datesInv_applyOp (ls : List Listing) (db : List Booking) (op : BookingOp)
    (h : datesInv db = true) : datesInv (applyOp ls db op) = true := by
  cases op with
  | create data user bid =>
    simp only [applyOp]
    split
    · exact h
    · cases hv : BookingSerializer.validate ls db data none with
      | error m => simp only [hv]; exact h
      | ok u =>
        cases u
        simp only [hv]
        cases hb : BookingSerializer.createBooking ls data user bid with
        | none => simp only [hb]; exact h
        | some b =>
          simp only [hb]
          split
          · exact h
          · rename_i hgate
            unfold datesInv at h ⊢
            rw [List.all_cons, Bool.and_eq_true]
            exact ⟨by simp only [decide_eq_true_eq]; omega, h⟩
  | update bid data =>
    simp only [applyOp]
    cases hf : db.find? (fun b => b.booking_id == bid) with
    | none => simp only [hf]; exact h
    | some inst =>
      simp only [hf]
      cases hv : BookingSerializer.validate ls db data (some bid) with
      | error m => simp only [hv]; exact h
      | ok u =>
        cases u
        simp only [hv]
        split
        · exact h
        · rename_i hgate
          exact all_map_replace h (by simp only [decide_eq_true_eq]; omega)
  | updateStatus bid s =>
    simp only [applyOp]
    cases hf : db.find? (fun b => b.booking_id == bid) with
    | none => simp only [hf]; exact h
    | some inst =>
      simp only [hf]
      have hm : inst ∈ db := List.mem_of_find?_eq_some hf
      have hP := List.all_eq_true.mp h inst hm
      exact all_map_replace h hP
  | cancel bid =>
    simp only [applyOp]
    cases hf : db.find? (fun b => b.booking_id == bid) with
    | none => simp only [hf]; exact h
    | some inst =>
      simp only [hf]
      cases hc : BookingViewSet.cancel inst with
      | error m => simp only [hc]; exact h
      | ok b' =>
        simp only [hc]
        have hm : inst ∈ db := List.mem_of_find?_eq_some hf
        have hP := List.all_eq_true.mp h inst hm
        rw [cancel_ok hc]
        exact all_map_replace h hP

theorem datesInv_runOps (ls : List Listing) (ops : List BookingOp) :
    datesInv (runOps ls ops) = true := by
  suffices hgen : ∀ db, datesInv db = true →
      datesInv (ops.foldl (applyOp ls) db) = true by
    exact hgen [] rfl
  induction ops with
  | nil => intro db h; exact h
  | cons op rest ih =>
    intro db h
    exact ih _ (datesInv_applyOp ls db op h)

theorem guestsInv_applyOp (ls : List Listing) (db : List Booking) (op : BookingOp)
    (hop : opGuestChecked op = true)
    (h : guestsInv ls db = true) : guestsInv ls (applyOp ls db op) = true := by
  cases op with
  | create data user bid =>
    simp only [applyOp]
    split
    · exact h
    · cases hv : BookingSerializer.validate ls db data none with
      | error m => simp only [hv]; exact h
      | ok u =>
        cases u
        simp only [hv]
        cases hb : BookingSerializer.createBooking ls data user bid with
        | none => simp only [hb]; exact h
        | some b =>
          simp only [hb]
          split
          · exact h
          · obtain ⟨lid, l, ci, co, hlid, hfind, hci, hco, hbeq⟩ := createBooking_some hb
            obtain ⟨l2, hfind2, hav2, hg2⟩ := validate_ok_listing hlid hv
            rw [hfind] at hfind2
            injection hfind2 with hll
            subst hll
            unfold guestsInv at h ⊢
            rw [List.all_cons, Bool.and_eq_true]
            refine ⟨?_, h⟩
            subst hbeq
            simp only [findListing_self hfind]
            simpa using hg2
  | update bid data =>
    simp only [opGuestChecked, Bool.and_eq_true, Option.isSome_iff_exists] at hop
    obtain ⟨⟨lid, hlid⟩, g, hgg⟩ := hop
    simp only [applyOp]
    cases hf : db.find? (fun b => b.booking_id == bid) with
    | none => simp only [hf]; exact h
    | some inst =>
      simp only [hf]
      cases hv : BookingSerializer.validate ls db data (some bid) with
      | error m => simp only [hv]; exact h
      | ok u =>
        cases u
        simp only [hv]
        split
        · exact h
        · obtain ⟨l, hfindl, hav, hgle⟩ := validate_ok_listing hlid hv
          rw [hgg, Option.getD_some] at hgle
          apply all_map_replace h
          have hmerge_lid : (mergeData inst data).listing_id = lid := by
            simp [mergeData, hlid]
          have hmerge_g : (mergeData inst data).number_of_guests = g := by
            simp [mergeData, hgg]
          simp only [hmerge_lid, hmerge_g, hfindl]
          simpa using hgle
  | updateStatus bid s =>
    simp only [applyOp]
    cases hf : db.find? (fun b => b.booking_id == bid) with
    | none => simp only [hf]; exact h
    | some inst =>
      simp only [hf]
      have hP := List.all_eq_true.mp h inst (List.mem_of_find?_eq_some hf)
      exact all_map_replace h hP
  | cancel bid =>
    simp only [applyOp]
    cases hf : db.find? (fun b => b.booking_id == bid) with
    | none => simp only [hf]; exact h
    | some inst =>
      simp only [hf]
      cases hc : BookingViewSet.cancel inst with
      | error m => simp only [hc]; exact h
      | ok b' =>
        simp only [hc]
        have hP := List.all_eq_true.mp h inst (List.mem_of_find?_eq_some hf)
        rw [cancel_ok hc]
        exact all_map_replace h hP

theorem guestsInv_foldl (ls : List Listing) :
    ∀ ops : List BookingOp, (∀ op ∈ ops, opGuestChecked op = true) →
    ∀ db, guestsInv ls db = true →
    guestsInv ls (ops.foldl (applyOp ls) db) = true := by
  intro ops
  induction ops with
  | nil => intro _ db h; simpa using h
  | cons op rest ih =>
    intro hops db h
    simp only [List.foldl_cons]
    exact ih (fun o ho => hops o (List.mem_cons_of_mem _ ho)) _
      (guestsInv_applyOp ls db op (hops op (List.mem_cons_self _ _)) h)

/-- C6: a payload carrying both dates with `check_out ≤ check_in` is always
rejected with the dates validation error, and every stored booking in every
reachable state satisfies `check_in_date < check_out_date`. -/
theorem booking_dates_validated :
    (∀ ls bs data inst ci co, data.check_in_date = some ci →
       data.check_out_date = some co → co ≤ ci →
       BookingSerializer.validate ls bs data inst =
         Except.error "Check-out date must be after check-in date") ∧
    (∀ ls ops, datesInv (runOps ls ops) = true) := by
  constructor
  · intro ls bs data inst ci co hci hco hle
    unfold BookingSerializer.validate
    simp only [hci, hco]
    rw [if_pos]
    simpa using hle
  · intro ls ops
    exact datesInv_runOps ls ops

/-- C6 witness: the concrete payload with check-in day 5 and check-out day 2
is rejected with the dates message, and a concrete trace ends in a state
where all bookings have `check_in < check_out`. -/
theorem booking_dates_validated_witness :
    BookingSerializer.validate [demoListing] [] demoBadDatesCreate none =
      Except.error "Check-out date must be after check-in date" ∧
    datesInv (runOps [demoListing] overlapTrace) = true :=
  ⟨booking_dates_validated.1 [demoListing] [] demoBadDatesCreate none 5 2 rfl rfl
     (by decide),
   booking_dates_validated.2 [demoListing] overlapTrace⟩

/-- C7 counterexample: after creating a two-guest booking on `demoListing`
(max 2 guests), a PATCH that sends only `number_of_guests = 50` passes
`BookingSerializer.validate` — the `if listing_id:` guard skips the guest
check — and is written, so the stored booking violates
`number_of_guests ≤ listing.max_guests`. -/
theorem booking_guest_limit_counterexample :
    guestsInv [demoListing] (runOps [demoListing] guestPatchTrace) = false := by
  decide

/-- C7 (amended): a payload that carries `listing_id` resolving to a listing
and asks for more than `max_guests` guests is always rejected; and in every
state reachable by operations whose update payloads carry both `listing_id`
and `number_of_guests`, every stored booking satisfies
`number_of_guests ≤ listing.max_guests`.  (A PATCH omitting `listing_id`
skips the check — see the counterexample.) -/
theorem booking_guest_limit :
    (∀ ls bs data inst lid l, data.listing_id = some lid →
       findListing ls lid = some l →
       data.number_of_guests.getD 1 > l.max_guests →
       ∃ m, BookingSerializer.validate ls bs data inst = Except.error m) ∧
    (∀ ls ops, (∀ op ∈ ops, opGuestChecked op = true) →
       guestsInv ls (runOps ls ops) = true) := by
  constructor
  · intro ls bs data inst lid l hlid hfind hg
    unfold BookingSerializer.validate
    simp only [hlid, hfind]
    split
    · exact ⟨_, rfl⟩
    · by_cases hav : l.available = false
      · rw [if_pos hav]
        exact ⟨_, rfl⟩
      · rw [if_neg hav]
        exact ⟨_, rfl⟩
  · intro ls ops hops
    exact guestsInv_foldl ls ops hops [] rfl

/-- C7 witness: a 50-guest create payload against `demoListing` (max 2) is
rejected, and a trace whose payloads all carry `listing_id` and
`number_of_guests` ends with every booking within the listing's limit. -/
theorem booking_guest_limit_witness :
    (∃ m, BookingSerializer.validate [demoListing] [] demoOverGuestsCreate none =
       Except.error m) ∧
    guestsInv [demoListing] (runOps [demoListing] singleCreateTrace) = true :=
  ⟨booking_guest_limit.1 [demoListing] [] demoOverGuestsCreate none 0 demoListing
     rfl rfl (by decide),
   booking_guest_limit.2 [demoListing] singleCreateTrace (by decide)⟩

/-- C2: the no-overlap invariant is violated in a reachable state.  In
`overlapTrace`, booking 1 (days 0-5) is cancelled, booking 2 is accepted for
the same days, and `update_status` — which performs no overlap validation —
flips booking 1 back to confirmed, leaving two overlapping active bookings
on the same listing. -/
theorem no_overlap_invariant_violated :
    noOverlapInv (runOps [demoListing] overlapTrace) = false := by
  decide

theorem reviewPairUnique_iff {rs : List Review} :
    reviewPairUnique rs = true ↔
      ∀ r1 ∈ rs, ∀ r2 ∈ rs, r1.review_id = r2.review_id ∨
        ¬(r1.listing_id = r2.listing_id ∧ r1.user = r2.user) := by
  simp only [reviewPairUnique, List.all_eq_true, Bool.or_eq_true, beq_iff_eq,
    Bool.not_eq_true']
  constructor
  · intro h r1 h1 r2 h2
    rcases h r1 h1 r2 h2 with he | hne
    · exact Or.inl he
    · right
      rintro ⟨ha, hb⟩
      rw [ha, hb] at hne
      simp at hne
  · intro h r1 h1 r2 h2
    rcases h r1 h1 r2 h2 with he | hne
    · exact Or.inl he
    · right
      cases hbe : (r1.listing_id == r2.listing_id && r1.user == r2.user) with
      | false => rfl
      | true =>
        rw [Bool.and_eq_true, beq_iff_eq, beq_iff_eq] at hbe
        exact absurd hbe hne

/-- C4 counterexample: with a review by user 1 on listing 0 already stored,
the same pair's create request passes serializer validation and is rejected
only by the database unique constraint: the result is an integrity error
(an uncaught 500), not a serializer validation error (400). -/
theorem review_duplicate_not_validation_error :
    isValidationError (reviewCreate [demoListing] [demoReview] demoDupReviewInput 1) =
      false ∧
    isIntegrityError (reviewCreate [demoListing] [demoReview] demoDupReviewInput 1) =
      true := by
  decide

/-- C4 (amended): at most one review per (listing, user) pair is preserved
by review creation, and a create request for a pair that already has a
review fails — rejected by the database `unique_user_listing_review`
constraint as an integrity error, not as a 400 validation error — with the
review table unchanged. -/
theorem review_unique_pair_enforced :
    (∀ ls rs inp rid rs', reviewPairUnique rs = true →
       reviewCreate ls rs inp rid = Except.ok rs' →
       reviewPairUnique rs' = true) ∧
    (∀ ls rs inp rid l, findListing ls inp.listing_id = some l →
       rs.any (fun r => r.listing_id == inp.listing_id && r.user == inp.user_id) =
         true →
       (∃ v, ReviewSerializer.validate_rating inp.rating = Except.ok v) →
       ∃ m, reviewCreate ls rs inp rid = Except.error (ApiError.integrity m)) := by
  constructor
  · intro ls rs inp rid rs' huniq hok
    unfold reviewCreate at hok
    cases hr : ReviewSerializer.validate_rating inp.rating with
    | error m =>
      simp only [hr] at hok
      exact absurd hok (by simp)
    | ok v =>
      simp only [hr] at hok
      cases hf : findListing ls inp.listing_id with
      | none =>
        simp only [hf] at hok
        exact absurd hok (by simp)
      | some l =>
        simp only [hf] at hok
        unfold dbInsertReview at hok
        split at hok
        · exact absurd hok (by simp)
        · rename_i hany
          have hrs' := Except.ok.inj hok
          subst hrs'
          rw [reviewPairUnique_iff] at huniq ⊢
          intro r1 h1 r2 h2
          rw [List.mem_cons] at h1 h2
          have hnodup : ∀ r0 ∈ rs,
              ¬(r0.listing_id = l.listing_id ∧ r0.user = inp.user_id) := by
            intro r0 h0 ⟨ha, hb⟩
            exact hany (List.any_eq_true.mpr ⟨r0, h0, by simp [ha, hb]⟩)
          rcases h1 with h1 | h1 <;> rcases h2 with h2 | h2
          · subst h1; subst h2; exact Or.inl rfl
          · subst h1
            right
            rintro ⟨ha, hb⟩
            exact hnodup r2 h2 ⟨ha.symm, hb.symm⟩
          · subst h2
            right
            rintro ⟨ha, hb⟩
            exact hnodup r1 h1 ⟨ha, hb⟩
          · exact huniq r1 h1 r2 h2
  · intro ls rs inp rid l hfind hany hra
    obtain ⟨v, hv⟩ := hra
    unfold reviewCreate
    simp only [hv, hfind]
    unfold dbInsertReview
    rw [if_pos]
    · exact ⟨_, rfl⟩
    · simp only [findListing_id hfind]
      exact hany

/-- C4 witness: creating the review on an empty table succeeds and the
resulting table is pair-unique; creating it again over `demoReview` (same
listing 0, same user 1) fails with an integrity error. -/
theorem review_unique_pair_enforced_witness :
    reviewPairUnique [demoCreatedReview] = true ∧
    (∃ m, reviewCreate [demoListing] [demoReview] demoDupReviewInput 1 =
       Except.error (ApiError.integrity m)) :=
  ⟨review_unique_pair_enforced.1 [demoListing] [] demoDupReviewInput 1
     [demoCreatedReview] (by decide) rfl,
   review_unique_pair_enforced.2 [demoListing] [demoReview] demoDupReviewInput 1
     demoListing rfl (by decide) ⟨4, rfl⟩⟩
